import Mathlib

/-!
Shallow embedding of the signal-mixing core of the `audioperturbator`
repository: the functions `mix` and `_norm_n_weight` of
`audioperturbator/utils/ops.py`, and the transformer call paths
`SoundMixer.__call__`, `NoiseMixer.__call__` and `MP3Compressor.__call__`
of `audioperturbator/transform.py`.

Signals are lists of real numbers.  The numpy / librosa floating-point
numerics are idealised over `ℝ`: `np.linalg.norm` is the Euclidean norm,
`np.sqrt` is `Real.sqrt`, `10 ** (dB / 20)` is the real power
`(10 : ℝ) ^ (dB / 20)`, and the tiny positive threshold that
`librosa.util.normalize` uses to guard against division by zero is
idealised to an exact test against zero.  Python exceptions are made
explicit through `Except PError`; the external processes invoked by
`MP3Compressor.__call__` are abstracted by parameters describing their
outcome.
-/

noncomputable section

/-- Errors that the embedded code can signal.  `degenerateSignal` is the
specification's `DegenerateSignalError`; it is included so that claims
about it can be stated, and no code path produces it.
`invalidParameter` models the `AssertionError` raised by the
`assert kbps in ...` guard of `MP3Compressor.__call__` (the
specification's name for that error kind).  `osErr` models a Python
`OSError` from invoking an external process; `calledProcessErr` models
`subprocess.CalledProcessError`; `nameError` models the `NameError`
raised when the undefined name `RunTimeError` is evaluated in the
`except OSError` handler of `MP3Compressor.__call__`.  `valueError`
models the `ValueError` numpy raises when adding arrays of incompatible
shapes, and `unreachableBranch` models the bare `raise ValueError()` in
the final `else` of `SoundMixer.__call__` (kept as a separate
constructor so that reachability of that branch can be stated).
`loadFailure` stands for a failure of `librosa.load`. -/
inductive PError where
  | degenerateSignal
  | invalidParameter
  | osErr
  | calledProcessErr
  | nameError
  | valueError
  | unreachableBranch
  | loadFailure
  deriving DecidableEq

/-- Largest absolute sample value of a signal: `np.max(np.abs(s))`, the
infinity norm used by `librosa.util.normalize` with its default
arguments (`0` on the empty list). -/
def maxAbs (s : List ℝ) : ℝ :=
  (s.map (fun a => |a|)).foldr max 0

/-- Sum of squared samples. -/
def sumSq (s : List ℝ) : ℝ :=
  (s.map (fun a => a ^ 2)).sum

/-- Euclidean norm of a signal: `np.linalg.norm(s)`. -/
def l2norm (s : List ℝ) : ℝ :=
  Real.sqrt (sumSq s)

/-- Root-mean-square amplitude as computed in `_norm_n_weight`
(`utils/ops.py`, line 38): `np.linalg.norm(x) / np.sqrt(len(x))`. -/
def rmsOf (s : List ℝ) : ℝ :=
  l2norm s / Real.sqrt s.length

/-- `librosa.util.normalize(s)` with its default arguments (infinity
norm, `fill=None`): divide every sample by the peak absolute value.
When the peak is below the tiny threshold — idealised here to: when the
peak is exactly zero — the signal is returned unchanged rather than
normalized, so an all-zero input comes back all-zero and no exception
is raised. -/
def peakNorm (s : List ℝ) : List ℝ :=
  if maxAbs s = 0 then s else s.map (fun a => a / maxAbs s)

/-- The value computed by `_norm_n_weight(x, dB)` (`utils/ops.py`,
lines 25-44): peak-normalize `x`, measure the RMS of the normalized
signal (`np.linalg.norm(x) / np.sqrt(len(x))` with `x` rebound to the
normalized signal), form the weight `10 ** (dB / 20) / rms`, and scale
the normalized signal by that weight.  Note that over `ℝ` a division by
a zero RMS yields `0` by convention, where numpy yields `inf` (and then
a NaN signal); neither raises an exception. -/
def nnwSig (x : List ℝ) (dB : ℝ) : List ℝ :=
  (peakNorm x).map (fun a => a * ((10 : ℝ) ^ (dB / 20) / rmsOf (peakNorm x)))

/-- `_norm_n_weight` with its exception channel made explicit.  For
finite real inputs neither `librosa.util.normalize` nor the numpy
arithmetic raises, so every call returns normally. -/
def norm_n_weight (x : List ℝ) (dB : ℝ) : Except PError (List ℝ) :=
  Except.ok (nnwSig x dB)

/-- Elementwise numpy addition `x0 + x1` of two one-dimensional arrays,
with numpy's broadcasting rule: the shapes are compatible when the
lengths are equal or one of them is `1`; otherwise numpy raises a
`ValueError`. -/
def npAdd (x0 x1 : List ℝ) : Except PError (List ℝ) :=
  if x0.length = x1.length then
    Except.ok (List.zipWith (fun a b => a + b) x0 x1)
  else if x1.length = 1 then
    Except.ok (x0.map (fun a => a + x1.headI))
  else if x0.length = 1 then
    Except.ok (x1.map (fun b => x0.headI + b))
  else
    Except.error PError.valueError

/-- `mix(x0, x1, snr)` (`utils/ops.py`, lines 7-22): weight `x0` to
0 dB and `x1` to `-snr` dB, add them, and peak-normalize the sum.  The
two `_norm_n_weight` calls cannot fail (see `norm_n_weight`), so the
only exception site is the numpy addition. -/
def mix (x0 x1 : List ℝ) (snr : ℝ) : Except PError (List ℝ) :=
  Except.map peakNorm (npAdd (nnwSig x0 0) (nnwSig x1 (-snr)))

/-- The elementwise sum `x0 + x1` formed inside `mix` after the two
weighting steps, in the equal-length case. -/
def weightedSum (x0 x1 : List ℝ) (snr : ℝ) : List ℝ :=
  List.zipWith (fun a b => a + b) (nnwSig x0 0) (nnwSig x1 (-snr))

/-- The repetition padding computed in the `len(self.other) < len(x)`
branch of `SoundMixer.__call__` (`transform.py`, lines 111-114):
`np.r_[other, other[0 : n - len(other)]]`.  Python slicing clamps, so
when `n - len(other)` exceeds `len(other)` the result is shorter than
`n`. -/
def padByRepetition (other : List ℝ) (n : ℕ) : List ℝ :=
  other ++ other.take (n - other.length)

/-- `SoundMixer.__call__(x, snr)` (`transform.py`, lines 95-125) with
the reference signal `self.other` passed explicitly and the value drawn
from `np.random.randint(len(self.other) - len(x))` in the random-crop
branch modelled by the parameter `st`.  The source compares the lengths
with `==`, `<` and `>` in that order; in the `<` branch it computes the
repetition padding, binds it to a local variable, and then calls
`mix(x, self.other, snr)` with the original unpadded signal, so the
padded value is dead.  In the `>` branch it mixes against the slice
`self.other[st : st + len(x)]`.  The final `else` raises a bare
`ValueError()`. -/
def soundMixerCall (other x : List ℝ) (snr : ℝ) (st : ℕ) : Except PError (List ℝ) :=
  if other.length = x.length then
    mix x other snr
  else if other.length < x.length then
    let _padded := padByRepetition other x.length
    mix x other snr
  else if other.length > x.length then
    mix x ((other.drop st).take x.length) snr
  else
    Except.error PError.unreachableBranch

/-- `NoiseMixer.__call__(x, snr)` (`transform.py`, lines 159-171): draw
a noise signal of length `len(x)` from the generator and mix.  The
noise generator (`_generate_noise`, implemented by subclasses through
an external noise library) is abstracted by the parameter `gen`. -/
def noiseMixerCall (gen : ℕ → List ℝ) (x : List ℝ) (snr : ℝ) : Except PError (List ℝ) :=
  mix x (gen x.length) snr

/-- The enumerated set of bitrates accepted by
`MP3Compressor.__call__` (`transform.py`, lines 221-224). -/
def validKbps : List ℕ :=
  [8, 16, 24, 32, 40, 48, 64, 80, 96, 112, 128, 160, 192, 224, 256, 320]

/-- Outcome of the `subprocess.check_call` invocation of the external
encoder: normal termination, an `OSError` (the process could not be
invoked), or a `subprocess.CalledProcessError` (nonzero exit). -/
inductive EncResult where
  | success
  | osError
  | calledProcessError
  deriving DecidableEq

/-- State of the temporary files handled by `MP3Compressor.__call__`:
how many temporary files `tempfile.mkstemp` has created during the
call, and whether each of the two still exists. -/
structure TempFileState where
  acquired : ℕ
  infileExists : Bool
  outfileExists : Bool
  deriving DecidableEq

/-- The `finally` block of `MP3Compressor.__call__` (`transform.py`,
lines 252-255): `os.unlink` both temporary files. -/
def removeBoth (st : TempFileState) : TempFileState :=
  { st with infileExists := false, outfileExists := false }

/-- The `except OSError` handler of `MP3Compressor.__call__`
(`transform.py`, lines 247-250): an `OSError` is caught and the handler
evaluates `RunTimeError(...)` — but `RunTimeError` is not a defined
Python name (the builtin is spelled `RuntimeError`), so the handler
itself raises `NameError` and the remediation message is never built.
Any other exception propagates unchanged. -/
def handleOSError : PError → Except PError (List ℝ)
  | PError.osErr => Except.error PError.nameError
  | e => Except.error e

/-- Python `try ... except OSError ... finally` over an explicit
temporary-file state: the handler transforms an exceptional outcome of
the body, and the `finally` action runs on every exit path, normal or
exceptional. -/
def tryExceptFinally (body : Except PError (List ℝ))
    (handler : PError → Except PError (List ℝ))
    (finalizer : TempFileState → TempFileState)
    (st : TempFileState) : Except PError (List ℝ) × TempFileState :=
  match body with
  | Except.ok y => (Except.ok y, finalizer st)
  | Except.error e => (handler e, finalizer st)

/-- `MP3Compressor.__call__(x, kbps)` (`transform.py`, lines 200-257).
The `assert kbps in ...` guard runs first; if it fails, an
`AssertionError` (modelled by `PError.invalidParameter`) is raised
before any temporary file is created.  Otherwise two temporary files
are acquired with `tempfile.mkstemp`, the input is dumped to the first,
and the encode (`subprocess.check_call` of `ffmpeg`, outcome `enc`) and
decode (`librosa.load`, outcome `loadRes`) run inside
`try ... except OSError ... finally`, whose `finally` block unlinks
both files.  The returned state records the temporary files. -/
def mp3Call (kbps : ℕ) (enc : EncResult) (loadRes : Except PError (List ℝ)) :
    Except PError (List ℝ) × TempFileState :=
  if kbps ∈ validKbps then
    let body : Except PError (List ℝ) :=
      match enc with
      | EncResult.success => loadRes
      | EncResult.osError => Except.error PError.osErr
      | EncResult.calledProcessError => Except.error PError.calledProcessErr
    tryExceptFinally body handleOSError removeBoth ⟨2, true, true⟩
  else
    (Except.error PError.invalidParameter, ⟨0, false, false⟩)

/-! Basic facts about the numeric helpers. -/

theorem maxAbs_nil : maxAbs [] = 0 := rfl

theorem maxAbs_cons (a : ℝ) (t : List ℝ) : maxAbs (a :: t) = max |a| (maxAbs t) := rfl

theorem maxAbs_nonneg (s : List ℝ) : 0 ≤ maxAbs s := by
  induction s with
  | nil => exact le_refl 0
  | cons a t ih => exact le_trans ih (le_max_right _ _)

theorem le_maxAbs_of_mem {a : ℝ} {s : List ℝ} (h : a ∈ s) : |a| ≤ maxAbs s := by
  induction s with
  | nil => cases h
  | cons b t ih =>
      rw [maxAbs_cons]
      rcases List.mem_cons.mp h with rfl | h
      · exact le_max_left _ _
      · exact le_trans (ih h) (le_max_right _ _)

theorem maxAbs_eq_zero_iff (s : List ℝ) : maxAbs s = 0 ↔ ∀ a ∈ s, a = 0 := by
  constructor
  · intro h a ha
    have h1 : |a| ≤ 0 := h ▸ le_maxAbs_of_mem ha
    exact abs_eq_zero.mp (le_antisymm h1 (abs_nonneg a))
  · intro h
    induction s with
    | nil => rfl
    | cons a t ih =>
        rw [maxAbs_cons, h a (List.mem_cons_self a t), abs_zero,
          ih fun b hb => h b (List.mem_cons_of_mem a hb)]
        exact max_self 0

theorem maxAbs_pos_of_exists {s : List ℝ} (h : ∃ a ∈ s, a ≠ 0) : 0 < maxAbs s := by
  obtain ⟨a, ha, hne⟩ := h
  exact lt_of_lt_of_le (abs_pos.mpr hne) (le_maxAbs_of_mem ha)

theorem maxAbs_map_mulL (s : List ℝ) (c : ℝ) (hc : 0 ≤ c) :
    maxAbs (s.map (fun a => c * a)) = c * maxAbs s := by
  induction s with
  | nil => simp [maxAbs]
  | cons a t ih =>
      rw [List.map_cons, maxAbs_cons, maxAbs_cons, ih, abs_mul, abs_of_nonneg hc,
        mul_max_of_nonneg _ _ hc]

theorem sumSq_nil : sumSq [] = 0 := rfl

theorem sumSq_cons (a : ℝ) (t : List ℝ) : sumSq (a :: t) = a ^ 2 + sumSq t := rfl

theorem sumSq_nonneg (s : List ℝ) : 0 ≤ sumSq s := by
  induction s with
  | nil => exact le_refl 0
  | cons a t ih => rw [sumSq_cons]; positivity

theorem sumSq_pos_of_mem {a : ℝ} {s : List ℝ} (ha : a ∈ s) (hne : a ≠ 0) :
    0 < sumSq s := by
  induction s with
  | nil => cases ha
  | cons b t ih =>
      rw [sumSq_cons]
      rcases List.mem_cons.mp ha with rfl | h
      · have h1 : 0 < a ^ 2 := (sq_nonneg a).lt_of_ne (Ne.symm (pow_ne_zero 2 hne))
        linarith [sumSq_nonneg t]
      · have h2 := ih h
        linarith [sq_nonneg b]

theorem sumSq_map_mulR (s : List ℝ) (c : ℝ) :
    sumSq (s.map (fun a => a * c)) = sumSq s * c ^ 2 := by
  induction s with
  | nil => simp [sumSq]
  | cons a t ih => rw [List.map_cons, sumSq_cons, sumSq_cons, ih]; ring

theorem l2norm_map_mulR (s : List ℝ) (c : ℝ) :
    l2norm (s.map (fun a => a * c)) = l2norm s * |c| := by
  unfold l2norm
  rw [sumSq_map_mulR, Real.sqrt_mul (sumSq_nonneg s), Real.sqrt_sq_eq_abs]

theorem l2norm_pos_of_exists {s : List ℝ} (h : ∃ a ∈ s, a ≠ 0) : 0 < l2norm s := by
  obtain ⟨a, ha, hne⟩ := h
  exact Real.sqrt_pos.mpr (sumSq_pos_of_mem ha hne)

theorem rmsOf_map_mulR (s : List ℝ) (c : ℝ) :
    rmsOf (s.map (fun a => a * c)) = rmsOf s * |c| := by
  unfold rmsOf
  rw [List.length_map, l2norm_map_mulR, mul_div_right_comm]

theorem rmsOf_pos {s : List ℝ} (h : ∃ a ∈ s, a ≠ 0) : 0 < rmsOf s := by
  have hlen : 0 < s.length := by
    obtain ⟨a, ha, _⟩ := h
    exact List.length_pos.mpr (List.ne_nil_of_mem ha)
  have hlR : (0 : ℝ) < (s.length : ℝ) := Nat.cast_pos.mpr hlen
  exact div_pos (l2norm_pos_of_exists h) (Real.sqrt_pos.mpr hlR)

theorem peakNorm_length (s : List ℝ) : (peakNorm s).length = s.length := by
  unfold peakNorm
  split_ifs <;> simp

theorem maxAbs_peakNorm {s : List ℝ} (h : maxAbs s ≠ 0) : maxAbs (peakNorm s) = 1 := by
  unfold peakNorm
  rw [if_neg h]
  simp only [div_eq_inv_mul]
  rw [maxAbs_map_mulL _ _ (inv_nonneg.mpr (maxAbs_nonneg s)), inv_mul_cancel₀ h]

theorem peakNorm_exists_ne {s : List ℝ} (hs : ∃ a ∈ s, a ≠ 0) :
    ∃ a ∈ peakNorm s, a ≠ 0 := by
  by_contra h
  push_neg at h
  have h0 : maxAbs (peakNorm s) = 0 := (maxAbs_eq_zero_iff _).mpr h
  rw [maxAbs_peakNorm (ne_of_gt (maxAbs_pos_of_exists hs))] at h0
  exact one_ne_zero h0

theorem peakNorm_scale {s : List ℝ} {c : ℝ} (hc : 0 < c) (hm : maxAbs s ≠ 0) :
    peakNorm (s.map (fun a => c * a)) = peakNorm s := by
  have hmm : maxAbs (s.map (fun a => c * a)) = c * maxAbs s := maxAbs_map_mulL s c hc.le
  unfold peakNorm
  rw [hmm, if_neg (mul_ne_zero hc.ne' hm), if_neg hm, List.map_map]
  congr 1
  funext a
  exact mul_div_mul_left a (maxAbs s) hc.ne'

theorem nnwSig_length (x : List ℝ) (dB : ℝ) : (nnwSig x dB).length = x.length := by
  unfold nnwSig
  rw [List.length_map, peakNorm_length]

theorem weightedSum_length {x0 x1 : List ℝ} (snr : ℝ) (h : x0.length = x1.length) :
    (weightedSum x0 x1 snr).length = x0.length := by
  unfold weightedSum
  rw [List.length_zipWith, nnwSig_length, nnwSig_length, ← h, min_self]

theorem mix_ok_of_eq_length (x0 x1 : List ℝ) (snr : ℝ) (h : x0.length = x1.length) :
    mix x0 x1 snr = Except.ok (peakNorm (weightedSum x0 x1 snr)) := by
  unfold mix npAdd weightedSum
  rw [if_pos (by rw [nnwSig_length, nnwSig_length, h])]
  rfl

theorem mix_no_unreachable (x0 x1 : List ℝ) (snr : ℝ) :
    mix x0 x1 snr ≠ Except.error PError.unreachableBranch := by
  unfold mix npAdd
  split_ifs <;> simp [Except.map]

/-! Evaluation helpers for concrete signals. -/

theorem nnwSig_zero_of_unit (s : List ℝ) (h1 : maxAbs s = 1) (h2 : rmsOf s = 1) :
    nnwSig s 0 = s := by
  have hp : peakNorm s = s := by
    unfold peakNorm
    rw [h1, if_neg one_ne_zero]
    simp
  unfold nnwSig
  rw [hp, h2]
  norm_num

theorem maxAbs_one_list : maxAbs [(1 : ℝ)] = 1 := by
  rw [maxAbs_cons, maxAbs_nil]
  norm_num

theorem rmsOf_one : rmsOf [(1 : ℝ)] = 1 := by
  have h : sumSq [(1 : ℝ)] = 1 := by norm_num [sumSq_cons, sumSq_nil]
  have hl : (([(1 : ℝ)]).length : ℝ) = 1 := by norm_num
  unfold rmsOf l2norm
  rw [h, hl, Real.sqrt_one, div_one]

theorem maxAbs_pm1 : maxAbs [(1 : ℝ), -1] = 1 := by
  rw [maxAbs_cons, maxAbs_cons, maxAbs_nil]
  norm_num

theorem maxAbs_mp1 : maxAbs [(-1 : ℝ), 1] = 1 := by
  rw [maxAbs_cons, maxAbs_cons, maxAbs_nil]
  norm_num

theorem rmsOf_pm1 : rmsOf [(1 : ℝ), -1] = 1 := by
  have h : sumSq [(1 : ℝ), -1] = 2 := by norm_num [sumSq_cons, sumSq_nil]
  have hl : (([(1 : ℝ), -1]).length : ℝ) = 2 := by norm_num
  unfold rmsOf l2norm
  rw [h, hl]
  exact div_self (ne_of_gt (Real.sqrt_pos.mpr (by norm_num)))

theorem rmsOf_mp1 : rmsOf [(-1 : ℝ), 1] = 1 := by
  have h : sumSq [(-1 : ℝ), 1] = 2 := by norm_num [sumSq_cons, sumSq_nil]
  have hl : (([(-1 : ℝ), 1]).length : ℝ) = 2 := by norm_num
  unfold rmsOf l2norm
  rw [h, hl]
  exact div_self (ne_of_gt (Real.sqrt_pos.mpr (by norm_num)))

theorem weightedSum_cex_eval : weightedSum [(1 : ℝ), -1] [(-1 : ℝ), 1] 0 = [0, 0] := by
  unfold weightedSum
  rw [neg_zero, nnwSig_zero_of_unit _ maxAbs_pm1 rmsOf_pm1,
    nnwSig_zero_of_unit _ maxAbs_mp1 rmsOf_mp1]
  norm_num [List.zipWith]

theorem weightedSum_wit_eval : weightedSum [(1 : ℝ)] [(1 : ℝ)] 0 = [2] := by
  unfold weightedSum
  rw [neg_zero, nnwSig_zero_of_unit _ maxAbs_one_list rmsOf_one]
  norm_num [List.zipWith]

/-! Claims. -/

/-- Claim C1: for every signal `s` of length at least 1 that is not
all-zero and every real target level `dB`, `_norm_n_weight(s, dB)`
returns a signal whose RMS equals `10 ^ (dB / 20)`, independent of the
original amplitude or length; in particular for every positive scale
factor `c`, `_norm_n_weight(c * s, dB) = _norm_n_weight(s, dB)`. -/
theorem C1_rms_and_scale_invariance (s : List ℝ) (dB c : ℝ)
    (hs : ∃ a ∈ s, a ≠ 0) (hc : 0 < c) :
    rmsOf (nnwSig s dB) = (10 : ℝ) ^ (dB / 20) ∧
    nnwSig (s.map (fun a => c * a)) dB = nnwSig s dB := by
  have hT : (0 : ℝ) < (10 : ℝ) ^ (dB / 20) := Real.rpow_pos_of_pos (by norm_num) _
  have hm : 0 < maxAbs s := maxAbs_pos_of_exists hs
  have hy : ∃ a ∈ peakNorm s, a ≠ 0 := peakNorm_exists_ne hs
  have hr : 0 < rmsOf (peakNorm s) := rmsOf_pos hy
  constructor
  · unfold nnwSig
    rw [rmsOf_map_mulR, abs_of_pos (div_pos hT hr), mul_comm,
      div_mul_cancel₀ _ (ne_of_gt hr)]
  · unfold nnwSig
    rw [peakNorm_scale hc (ne_of_gt hm)]

/-- Witness for C1 at `s = [1]`, `dB = 0`, `c = 2`. -/
theorem C1_witness :
    (∃ a ∈ [(1 : ℝ)], a ≠ 0) ∧ (0 : ℝ) < 2 ∧
      (rmsOf (nnwSig [(1 : ℝ)] 0) = (10 : ℝ) ^ ((0 : ℝ) / 20) ∧
        nnwSig ([(1 : ℝ)].map (fun a => (2 : ℝ) * a)) 0 = nnwSig [(1 : ℝ)] 0) :=
  ⟨⟨1, List.mem_cons_self 1 [], one_ne_zero⟩, by norm_num,
    C1_rms_and_scale_invariance [(1 : ℝ)] 0 2
      ⟨1, List.mem_cons_self 1 [], one_ne_zero⟩ (by norm_num)⟩

/-- Claim C3 counterexample: on the all-zero signal `[0]`,
`_norm_n_weight` does not fail with `DegenerateSignalError` — it
returns a value (librosa's `normalize` leaves an all-zero signal
unchanged instead of dividing by zero, and the subsequent numpy
division by the zero RMS yields a non-finite weight without raising). -/
theorem C3_counterexample :
    (∀ a ∈ [(0 : ℝ)], a = 0) ∧
    norm_n_weight [(0 : ℝ)] 0 ≠ Except.error PError.degenerateSignal := by
  constructor
  · intro a ha
    simpa using ha
  · intro h
    simp [norm_n_weight] at h

/-- Claim C3 amended: `_norm_n_weight` never raises, on all-zero inputs
included; no `DegenerateSignalError` exists in the code.  For an
all-zero input, `librosa.util.normalize` returns the signal unchanged
(its peak is below the tiny threshold, so with `fill=None` the data is
left un-normalized), and the gain computation divides by the zero RMS,
producing a degenerate value rather than an exception. -/
theorem C3_never_raises (x : List ℝ) (dB : ℝ) :
    (∃ y, norm_n_weight x dB = Except.ok y) ∧
      ((∀ a ∈ x, a = 0) → peakNorm x = x) := by
  constructor
  · exact ⟨nnwSig x dB, rfl⟩
  · intro h
    unfold peakNorm
    rw [if_pos ((maxAbs_eq_zero_iff x).mpr h)]

/-- Witness for C3 (amended) at the all-zero signal `[0]`. -/
theorem C3_witness :
    (∀ a ∈ [(0 : ℝ)], a = 0) ∧
      ((∃ y, norm_n_weight [(0 : ℝ)] 0 = Except.ok y) ∧ peakNorm [(0 : ℝ)] = [(0 : ℝ)]) :=
  ⟨by simp, (C3_never_raises [(0 : ℝ)] 0).1, (C3_never_raises [(0 : ℝ)] 0).2 (by simp)⟩

/-- Claim C4 counterexample: `[1, -1]` and `[-1, 1]` are equal-length
non-degenerate signals, yet `mix([1,-1], [-1,1], 0)` returns the
all-zero signal, whose peak absolute amplitude is `0`, not `1.0`: the
two weighted components cancel exactly, and `librosa.util.normalize`
leaves the all-zero sum unchanged. -/
theorem C4_counterexample :
    ([(1 : ℝ), -1]).length = ([(-1 : ℝ), 1]).length ∧
    (∃ a ∈ [(1 : ℝ), -1], a ≠ 0) ∧ (∃ a ∈ [(-1 : ℝ), 1], a ≠ 0) ∧
    mix [(1 : ℝ), -1] [(-1 : ℝ), 1] 0 = Except.ok [(0 : ℝ), 0] ∧
    maxAbs [(0 : ℝ), 0] = 0 := by
  refine ⟨rfl, ⟨1, List.mem_cons_self 1 _, one_ne_zero⟩,
    ⟨1, List.mem_cons_of_mem _ (List.mem_cons_self 1 _), one_ne_zero⟩, ?_, ?_⟩
  · rw [mix_ok_of_eq_length [(1 : ℝ), -1] [(-1 : ℝ), 1] 0 rfl, weightedSum_cex_eval]
    unfold peakNorm
    rw [if_pos (by rw [maxAbs_cons, maxAbs_cons, maxAbs_nil]; norm_num)]
  · rw [maxAbs_cons, maxAbs_cons, maxAbs_nil]
    norm_num

/-- Claim C4 amended: for every pair of equal-length non-degenerate
signals and every SNR value such that the weighted sum formed inside
`mix` is not all-zero (which holds in particular when mixing a
non-silent signal with itself at 0 dB), `mix` returns a signal whose
peak absolute amplitude is `1.0`. -/
theorem C4_peak_amended (x0 x1 : List ℝ) (snr : ℝ)
    (hlen : x0.length = x1.length)
    (h0 : ∃ a ∈ x0, a ≠ 0) (h1 : ∃ a ∈ x1, a ≠ 0)
    (hsum : ∃ a ∈ weightedSum x0 x1 snr, a ≠ 0) :
    ∃ y, mix x0 x1 snr = Except.ok y ∧ maxAbs y = 1 :=
  ⟨peakNorm (weightedSum x0 x1 snr), mix_ok_of_eq_length x0 x1 snr hlen,
    maxAbs_peakNorm (ne_of_gt (maxAbs_pos_of_exists hsum))⟩

/-- Witness for C4 (amended): mixing `[1]` with itself at 0 dB. -/
theorem C4_witness :
    ([(1 : ℝ)]).length = ([(1 : ℝ)]).length ∧
      (∃ a ∈ weightedSum [(1 : ℝ)] [(1 : ℝ)] 0, a ≠ 0) ∧
      (∃ y, mix [(1 : ℝ)] [(1 : ℝ)] 0 = Except.ok y ∧ maxAbs y = 1) := by
  have ex1 : ∃ a ∈ [(1 : ℝ)], a ≠ 0 := ⟨1, List.mem_cons_self 1 [], one_ne_zero⟩
  have hsum : ∃ a ∈ weightedSum [(1 : ℝ)] [(1 : ℝ)] 0, a ≠ 0 := by
    rw [weightedSum_wit_eval]
    exact ⟨2, List.mem_cons_self 2 [], by norm_num⟩
  exact ⟨rfl, hsum, C4_peak_amended [(1 : ℝ)] [(1 : ℝ)] 0 rfl ex1 ex1 hsum⟩

/-- Claim C2: evaluation of the `len(self.other) < len(x)` branch of
`SoundMixer.__call__` at `primary = ones(10)`, `secondary = [1,2,3]`.
The padding the source computes is `[1,2,3] ++ [1,2,3][0:7]`, which is
`[1,2,3,1,2,3]` of length 6 (the Python slice clamps), not the
length-10 signal `[1,2,3,1,2,3,1,2,3,1]` the claim describes — and it
is then discarded: the branch calls `mix(x, self.other, snr)` with the
original 3-sample secondary, and the numpy addition of a length-10 and
a length-3 array raises `ValueError`. -/
theorem C2_shorter_branch_eval :
    padByRepetition [(1 : ℝ), 2, 3] 10 = [1, 2, 3, 1, 2, 3] ∧
    soundMixerCall [(1 : ℝ), 2, 3] (List.replicate 10 1) 30 0 =
      Except.error PError.valueError := by
  constructor
  · unfold padByRepetition
    norm_num
  · unfold soundMixerCall
    rw [if_neg (by simp), if_pos (by simp)]
    show mix (List.replicate 10 (1 : ℝ)) [(1 : ℝ), 2, 3] 30 = Except.error PError.valueError
    unfold mix npAdd
    rw [if_neg (by simp [nnwSig_length]), if_neg (by simp [nnwSig_length]),
      if_neg (by simp [nnwSig_length])]
    rfl

/-- Claim C5: in the `len(self.other) > len(x)` branch of
`SoundMixer.__call__`, for every start offset the random source can
produce (any `st` in `[0, len(other) - len(x))`), the secondary passed
to `mix` is a contiguous window of exactly `len(x)` samples of
`other`, starting at offset `st`. -/
theorem C5_crop_window (other x : List ℝ) (snr : ℝ) (st : ℕ)
    (hlen : x.length < other.length) (hst : st < other.length - x.length) :
    ∃ w, soundMixerCall other x snr st = mix x w snr ∧
      w.length = x.length ∧
      ∀ i, i < x.length → w[i]? = other[st + i]? := by
  refine ⟨(other.drop st).take x.length, ?_, ?_, ?_⟩
  · unfold soundMixerCall
    rw [if_neg (by omega), if_neg (by omega), if_pos hlen]
  · rw [List.length_take, List.length_drop]
    omega
  · intro i hi
    rw [List.getElem?_take_of_lt hi, List.getElem?_drop]

/-- Witness for C5: `other = [0,…,9]`, a primary of length 5, start
offset 2. -/
theorem C5_witness :
    ((List.replicate 5 (1 : ℝ)).length < ([0, 1, 2, 3, 4, 5, 6, 7, 8, 9] : List ℝ).length) ∧
    (2 < ([0, 1, 2, 3, 4, 5, 6, 7, 8, 9] : List ℝ).length - (List.replicate 5 (1 : ℝ)).length) ∧
    (∃ w, soundMixerCall [0, 1, 2, 3, 4, 5, 6, 7, 8, 9] (List.replicate 5 (1 : ℝ)) 30 2 =
        mix (List.replicate 5 (1 : ℝ)) w 30 ∧
      w.length = (List.replicate 5 (1 : ℝ)).length ∧
      ∀ i, i < (List.replicate 5 (1 : ℝ)).length →
        w[i]? = ([0, 1, 2, 3, 4, 5, 6, 7, 8, 9] : List ℝ)[2 + i]?) :=
  ⟨by simp, by simp,
    C5_crop_window [0, 1, 2, 3, 4, 5, 6, 7, 8, 9] (List.replicate 5 (1 : ℝ)) 30 2
      (by simp) (by simp)⟩

/-- Claim C9: the three length comparisons in `SoundMixer.__call__` are
exhaustive, so the final `else` branch (the bare `raise ValueError()`)
is unreachable for every pair of signals, every SNR and every offset
the random source can produce. -/
theorem C9_else_unreachable (other x : List ℝ) (snr : ℝ) (st : ℕ) :
    soundMixerCall other x snr st ≠ Except.error PError.unreachableBranch := by
  unfold soundMixerCall
  split_ifs with h1 h2 h3
  · exact mix_no_unreachable x other snr
  · exact mix_no_unreachable x other snr
  · exact mix_no_unreachable x ((other.drop st).take x.length) snr
  · exact (h1 (by omega)).elim

/-- Claim C10: length preservation at the public mixing interface.  For
equal-length non-degenerate inputs, `mix` returns a signal of exactly
`len(primary)` samples, and `NoiseMixer.__call__`, whose generator
produces `len(x)` noise samples, returns a signal of exactly `len(x)`
samples. -/
theorem C10_length_preservation (x0 x1 x : List ℝ) (snr snr2 : ℝ) (gen : ℕ → List ℝ)
    (hlen : x0.length = x1.length)
    (h0 : ∃ a ∈ x0, a ≠ 0) (h1 : ∃ a ∈ x1, a ≠ 0)
    (hg : (gen x.length).length = x.length) :
    (∃ y, mix x0 x1 snr = Except.ok y ∧ y.length = x0.length) ∧
    (∃ y, noiseMixerCall gen x snr2 = Except.ok y ∧ y.length = x.length) := by
  constructor
  · exact ⟨peakNorm (weightedSum x0 x1 snr), mix_ok_of_eq_length x0 x1 snr hlen,
      by rw [peakNorm_length, weightedSum_length snr hlen]⟩
  · refine ⟨peakNorm (weightedSum x (gen x.length) snr2), ?_, ?_⟩
    · unfold noiseMixerCall
      exact mix_ok_of_eq_length x (gen x.length) snr2 hg.symm
    · rw [peakNorm_length, weightedSum_length snr2 hg.symm]

/-- Witness for C10 at `x0 = x1 = x = [1]`, a generator producing
constant-one noise. -/
theorem C10_witness :
    ([(1 : ℝ)]).length = ([(1 : ℝ)]).length ∧
    ((fun n => List.replicate n (1 : ℝ)) ([(1 : ℝ)].length)).length = ([(1 : ℝ)]).length ∧
    ((∃ y, mix [(1 : ℝ)] [(1 : ℝ)] 0 = Except.ok y ∧ y.length = ([(1 : ℝ)]).length) ∧
      (∃ y, noiseMixerCall (fun n => List.replicate n (1 : ℝ)) [(1 : ℝ)] 0 = Except.ok y ∧
        y.length = ([(1 : ℝ)]).length)) := by
  have ex1 : ∃ a ∈ [(1 : ℝ)], a ≠ 0 := ⟨1, List.mem_cons_self 1 [], one_ne_zero⟩
  exact ⟨rfl, by simp,
    C10_length_preservation [(1 : ℝ)] [(1 : ℝ)] [(1 : ℝ)] 0 0
      (fun n => List.replicate n (1 : ℝ)) rfl ex1 ex1 (by simp)⟩

/-- Claim C6: for every valid bitrate and every outcome of the encode
(`subprocess.check_call`) and decode (`librosa.load`) steps — success,
`OSError`, `CalledProcessError`, or a load failure — the call acquires
exactly two temporary files and the `finally` block removes both before
anything propagates to the caller. -/
theorem C6_temp_cleanup (kbps : ℕ) (enc : EncResult) (loadRes : Except PError (List ℝ))
    (hk : kbps ∈ validKbps) :
    (mp3Call kbps enc loadRes).2.acquired = 2 ∧
    (mp3Call kbps enc loadRes).2.infileExists = false ∧
    (mp3Call kbps enc loadRes).2.outfileExists = false := by
  unfold mp3Call
  rw [if_pos hk]
  cases enc <;> cases loadRes <;>
    simp [tryExceptFinally, removeBoth, handleOSError]

/-- Witness for C6 at bitrate 128 with a failing encoder invocation. -/
theorem C6_witness :
    128 ∈ validKbps ∧
    ((mp3Call 128 EncResult.osError (Except.ok [])).2.acquired = 2 ∧
      (mp3Call 128 EncResult.osError (Except.ok [])).2.infileExists = false ∧
      (mp3Call 128 EncResult.osError (Except.ok [])).2.outfileExists = false) :=
  ⟨by decide, C6_temp_cleanup 128 EncResult.osError (Except.ok []) (by decide)⟩

/-- Claim C7: evaluation of `MP3Compressor.__call__` when the external
encoder cannot be invoked (the `subprocess.check_call` raises
`OSError`).  The `except OSError` handler evaluates the undefined name
`RunTimeError` — the Python builtin is spelled `RuntimeError` — so what
actually propagates is a `NameError`, not a distinct, clearly-labeled
error wrapping the OS error with a remediation hint. -/
theorem C7_oserror_eval :
    (mp3Call 128 EncResult.osError (Except.ok [])).1 = Except.error PError.nameError := by
  unfold mp3Call
  rw [if_pos (by decide)]
  rfl

/-- Claim C8: calling the compressor with a bitrate outside the
enumerated set — 100 for example — raises the eager parameter check's
error before any work is done: no temporary file has been created when
the error propagates. -/
theorem C8_invalid_bitrate (kbps : ℕ) (enc : EncResult) (loadRes : Except PError (List ℝ))
    (hk : kbps ∉ validKbps) :
    mp3Call kbps enc loadRes =
      (Except.error PError.invalidParameter, ⟨0, false, false⟩) := by
  unfold mp3Call
  rw [if_neg hk]

/-- Witness for C8 at bitrate 100. -/
theorem C8_witness :
    100 ∉ validKbps ∧
    mp3Call 100 EncResult.success (Except.ok []) =
      (Except.error PError.invalidParameter, ⟨0, false, false⟩) :=
  ⟨by decide, C8_invalid_bitrate 100 EncResult.success (Except.ok []) (by decide)⟩

end
